import Mathlib

/-!
Verification of the transaction-tracking service core: the per-key
sliding-window admission controller (`rate_limiter` in src/main.py), the
schema-evolution routine (`init_db` in src/database.py), the ledger CRUD
operations (src/crud.py together with the endpoint guards in src/main.py),
and the ranking/aggregation endpoints (`ranking`, `ranking_contributors`,
`get_stats` in src/main.py).

Timestamps and weights are modelled as rationals, machine floats being used
by the source only as real-valued quantities; database NULL is `Option.none`.
-/

namespace TxCore

/-! ## Admission controller (src/main.py, rate_limiter)

The store `RATE_LIMIT_STORE` is a dict from client key to a list of request
timestamps; we model it as an association list.  `rate_limiter` evicts the
timestamps older than `WINDOW` seconds, denies (raises 429) when the
remaining count has reached `MAX` without writing anything back, and
otherwise appends the current time and stores the list. -/

/-- The rate-limit table: client key to recorded request timestamps. -/
def RateStore : Type := List (String × List ℚ)

/-- `RATE_LIMIT_STORE.get(key, [])`. -/
def getList (s : RateStore) (k : String) : List ℚ :=
  match (List.find? (fun p => p.1 == k) s) with
  | none => []
  | some p => p.2

/-- `RATE_LIMIT_STORE[key] = lst` (replace if present, else add). -/
def setList (s : RateStore) (k : String) (l : List ℚ) : RateStore :=
  match s with
  | [] => [(k, l)]
  | p :: rest => if p.1 == k then (k, l) :: rest else p :: setList rest k l

/-- One admission check (`rate_limiter`), parameterised by the configured
`RATE_LIMIT_MAX` and `RATE_LIMIT_WINDOW`.  Returns `true` for allow and
`false` for deny (the 429 path), together with the table after the call. -/
def rate_limiter (maxReq : ℕ) (window : ℚ) (key : String) (now : ℚ)
    (store : RateStore) : Bool × RateStore :=
  if maxReq ≤ ((getList store key).filter (fun ts => decide (now - ts ≤ window))).length
  then (false, store)
  else (true, setList store key
    ((getList store key).filter (fun ts => decide (now - ts ≤ window)) ++ [now]))

/-- A sequence of admission checks for one key at the given times. -/
def admitSeq (maxReq : ℕ) (window : ℚ) (key : String) :
    List ℚ → RateStore → List Bool × RateStore
  | [], s => ([], s)
  | t :: ts, s =>
    let r := rate_limiter maxReq window key t s
    let rest := admitSeq maxReq window key ts r.2
    (r.1 :: rest.1, rest.2)

theorem getList_setList (s : RateStore) (k : String) (l : List ℚ) :
    getList (setList s k l) k = l := by
  induction s with
  | nil => simp [setList, getList, List.find?]
  | cons p rest ih =>
    by_cases h : p.1 = k
    · simp [setList, getList, List.find?, h]
    · have hb : (p.1 == k) = false := by simp [h]
      simp [setList, hb, getList, List.find?]
      exact ih

theorem admitSeq_cons (maxReq : ℕ) (window : ℚ) (key : String) (t : ℚ)
    (ts : List ℚ) (s : RateStore) :
    admitSeq maxReq window key (t :: ts) s =
      ((rate_limiter maxReq window key t s).1 ::
        (admitSeq maxReq window key ts (rate_limiter maxReq window key t s).2).1,
       (admitSeq maxReq window key ts (rate_limiter maxReq window key t s).2).2) := rfl

/-- Behaviour of a run of admission checks for one key whose timestamps are
all within `window` of the timestamps already stored for that key: no entry
is ever evicted, so the i-th call is allowed exactly while the stored count
is below `maxReq`, and the stored list ends as the old list extended by the
first admitted timestamps. -/
theorem admitSeq_spec (maxReq : ℕ) (window : ℚ) (key : String)
    (ts : List ℚ) (l : List ℚ) (s : RateStore)
    (hs : getList s key = l)
    (hl : l.length ≤ maxReq)
    (hlt : ∀ x ∈ l, ∀ t ∈ ts, t - x ≤ window)
    (hts : ∀ a ∈ ts, ∀ b ∈ ts, a - b ≤ window) :
    (admitSeq maxReq window key ts s).1
      = (List.range ts.length).map (fun i => decide (l.length + i < maxReq)) ∧
    getList (admitSeq maxReq window key ts s).2 key
      = l ++ ts.take (maxReq - l.length) := by
  induction ts generalizing l s with
  | nil => simp [admitSeq, hs]
  | cons t rest ih =>
    have hfilter : l.filter (fun x => decide (t - x ≤ window)) = l := by
      apply List.filter_eq_self.mpr
      intro x hx
      simp only [decide_eq_true_eq]
      exact hlt x hx t (by simp)
    rw [admitSeq_cons]
    by_cases hcase : maxReq ≤ l.length
    · -- the call is denied and the store is left unchanged
      have hlen : l.length = maxReq := le_antisymm hl hcase
      have hrl : rate_limiter maxReq window key t s = (false, s) := by
        simp only [rate_limiter, hs, hfilter]
        rw [if_pos hcase]
      rw [hrl]
      have hrec := ih l s hs hl
        (fun x hx u hu => hlt x hx u (List.mem_cons_of_mem _ hu))
        (fun a ha b hb => hts a (List.mem_cons_of_mem _ ha) b (List.mem_cons_of_mem _ hb))
      refine ⟨?_, ?_⟩
      · simp only [hrec.1, List.length_cons, List.range_succ_eq_map, List.map_cons,
          List.map_map, List.cons.injEq]
        constructor
        · simp [hlen]
        · apply List.map_congr_left
          intro i _
          simp only [Function.comp_apply, hlen, decide_eq_decide]
          omega
      · simp only [hrec.2, hlen]
        simp
    · -- the call is allowed and `t` is appended
      have hlt' : l.length < maxReq := lt_of_not_le hcase
      have hrl : rate_limiter maxReq window key t s
          = (true, setList s key (l ++ [t])) := by
        simp only [rate_limiter, hs, hfilter]
        rw [if_neg hcase]
      rw [hrl]
      have hrec := ih (l ++ [t]) (setList s key (l ++ [t]))
        (getList_setList s key (l ++ [t]))
        (by simpa using hlt')
        (by
          intro x hx u hu
          rcases List.mem_append.mp hx with hxl | hxt
          · exact hlt x hxl u (List.mem_cons_of_mem _ hu)
          · have hxe : x = t := by simpa using hxt
            subst hxe
            exact hts u (List.mem_cons_of_mem _ hu) x (List.mem_cons_self _ _))
        (fun a ha b hb => hts a (List.mem_cons_of_mem _ ha) b (List.mem_cons_of_mem _ hb))
      refine ⟨?_, ?_⟩
      · simp only [hrec.1, List.length_cons, List.range_succ_eq_map, List.map_cons,
          List.map_map, List.cons.injEq]
        constructor
        · simp [hlt']
        · apply List.map_congr_left
          intro i _
          simp only [Function.comp_apply, List.length_append, List.length_cons,
            List.length_nil, decide_eq_decide]
          omega
      · rw [hrec.2]
        have hk : maxReq - l.length = (maxReq - (l.length + 1)) + 1 := by omega
        rw [hk]
        simp [List.take_succ_cons, List.length_append]

/-- C1: starting from a table with no recorded activity for the key, a
sequence of `MAX+1` admission checks whose timestamps all lie within
`WINDOW` of each other ends with a deny; and a further call strictly more
than `WINDOW` after every timestamp of the sequence is allowed again.
(`MAX` must be positive, as with the default configuration `MAX = 6`;
an entry is evicted only when the new call is strictly more than `WINDOW`
later, matching the `now - ts <= WINDOW` retention test in the source.) -/
theorem c1_sliding_window_deny_then_allow (maxReq : ℕ) (window : ℚ)
    (key : String) (ts : List ℚ) (t' : ℚ)
    (hmax : 0 < maxReq)
    (hlen : ts.length = maxReq + 1)
    (hts : ∀ a ∈ ts, ∀ b ∈ ts, a - b ≤ window)
    (hfar : ∀ t ∈ ts, window < t' - t) :
    (admitSeq maxReq window key ts []).1.getLast? = some false ∧
    (rate_limiter maxReq window key t' (admitSeq maxReq window key ts []).2).1
      = true := by
  have hbase := admitSeq_spec maxReq window key ts [] []
    (by simp [getList, List.find?]) (by simp) (by simp) hts
  constructor
  · rw [hbase.1, hlen, List.range_succ, List.map_append]
    simp
  · have hstore : getList (admitSeq maxReq window key ts []).2 key
        = ts.take maxReq := by simpa using hbase.2
    have hfe : (ts.take maxReq).filter (fun x => decide (t' - x ≤ window)) = [] := by
      apply List.filter_eq_nil_iff.mpr
      intro x hx
      simp only [decide_eq_true_eq]
      have := hfar x (List.mem_of_mem_take hx)
      linarith
    simp only [rate_limiter, hstore, hfe, List.length_nil]
    rw [if_neg (by omega)]

/-- Witness for C1 at the concrete configuration `MAX = 2`, `WINDOW = 10`,
timestamps 0, 1, 2 and a later call at time 20. -/
theorem c1_sliding_window_deny_then_allow_witness :
    (0 < 2 ∧ ([0, 1, 2] : List ℚ).length = 2 + 1 ∧
      (∀ a ∈ ([0, 1, 2] : List ℚ), ∀ b ∈ ([0, 1, 2] : List ℚ), a - b ≤ 10) ∧
      (∀ t ∈ ([0, 1, 2] : List ℚ), 10 < 20 - t)) ∧
    (admitSeq 2 10 "k" [0, 1, 2] []).1.getLast? = some false ∧
    (rate_limiter 2 10 "k" 20 (admitSeq 2 10 "k" [0, 1, 2] []).2).1 = true :=
  ⟨⟨by norm_num, by rfl,
    by intro a ha b hb; fin_cases ha <;> fin_cases hb <;> norm_num,
    by intro t ht; fin_cases ht <;> norm_num⟩,
    c1_sliding_window_deny_then_allow 2 10 "k" [0, 1, 2] 20
      (by norm_num) (by rfl)
      (by intro a ha b hb; fin_cases ha <;> fin_cases hb <;> norm_num)
      (by intro t ht; fin_cases ht <;> norm_num)⟩

/-- C2: a denied admission check leaves the rate-limit table completely
unchanged; every timestamp surviving the eviction step is within `WINDOW`
of the call time; and after an allowed call the stored sequence for the key
has length at most `MAX` with every entry within `WINDOW` of the call time
(so its restriction to the trailing window is the whole sequence). -/
theorem c2_rate_window_invariant (maxReq : ℕ) (window : ℚ) (key : String)
    (now : ℚ) (s : RateStore) (hw : 0 ≤ window) :
    ((rate_limiter maxReq window key now s).1 = false →
      (rate_limiter maxReq window key now s).2 = s) ∧
    (∀ x ∈ (getList s key).filter (fun ts => decide (now - ts ≤ window)),
      now - x ≤ window) ∧
    ((rate_limiter maxReq window key now s).1 = true →
      (getList (rate_limiter maxReq window key now s).2 key).length ≤ maxReq ∧
      ∀ x ∈ getList (rate_limiter maxReq window key now s).2 key,
        now - x ≤ window) := by
  refine ⟨?_, ?_, ?_⟩
  · intro hdeny
    by_cases hcase : maxReq ≤
        ((getList s key).filter (fun ts => decide (now - ts ≤ window))).length
    · simp only [rate_limiter]
      rw [if_pos hcase]
    · simp only [rate_limiter] at hdeny
      rw [if_neg hcase] at hdeny
      simp at hdeny
  · intro x hx
    have := List.of_mem_filter hx
    simpa using this
  · intro hallow
    by_cases hcase : maxReq ≤
        ((getList s key).filter (fun ts => decide (now - ts ≤ window))).length
    · simp only [rate_limiter] at hallow
      rw [if_pos hcase] at hallow
      simp at hallow
    · have hset : (rate_limiter maxReq window key now s).2
          = setList s key
            (((getList s key).filter (fun ts => decide (now - ts ≤ window))) ++ [now]) := by
        simp only [rate_limiter]
        rw [if_neg hcase]
      rw [hset, getList_setList]
      constructor
      · simp only [List.length_append, List.length_cons, List.length_nil]
        omega
      · intro x hx
        rcases List.mem_append.mp hx with hxf | hxn
        · have := List.of_mem_filter hxf
          simpa using this
        · have hxe : x = now := by simpa using hxn
          subst hxe
          simpa using hw

/-- Witness for C2 at a concrete call: one previous timestamp, window 10. -/
theorem c2_rate_window_invariant_witness :
    ((0 : ℚ) ≤ 10) ∧
    (((rate_limiter 6 10 "k" 5 [("k", [1])]).1 = false →
       (rate_limiter 6 10 "k" 5 [("k", [1])]).2 = [("k", [1])]) ∧
     (∀ x ∈ (getList [("k", [1])] "k").filter (fun ts => decide ((5 : ℚ) - ts ≤ 10)),
       (5 : ℚ) - x ≤ 10) ∧
     ((rate_limiter 6 10 "k" 5 [("k", [1])]).1 = true →
       (getList (rate_limiter 6 10 "k" 5 [("k", [1])]).2 "k").length ≤ 6 ∧
       ∀ x ∈ getList (rate_limiter 6 10 "k" 5 [("k", [1])]).2 "k",
         (5 : ℚ) - x ≤ 10)) :=
  ⟨by norm_num, c2_rate_window_invariant 6 10 "k" 5 [("k", [1])] (by norm_num)⟩

/-! ## Data model (src/models.py)

One table `transactions`; NULLable columns are `Option`, floats are `ℚ`,
datetimes are opaque rational stamps. -/

/-- `models.StatusEnum`. -/
inductive StatusEnum
  | pending
  | collected
  | cancelled
deriving DecidableEq

/-- One row of the `transactions` table (`models.Transaction`). -/
structure Transaction where
  id : ℤ
  name : String
  phone : Option String
  wallet : Option String
  weight_kg : Option ℚ
  address : Option String
  photo : Option String
  date : Option ℚ
  status : StatusEnum
  collected_weight_kg : Option ℚ
  collected_photo : Option String
  collected_at : Option ℚ
deriving DecidableEq

/-! ## Schema evolution (src/database.py, init_db)

The persisted layout: which of the `collected_*` columns exist and whether
`weight_kg` is still NOT NULL, plus the stored rows.  `init_db` creates the
table when absent, adds the missing `collected_*` columns with additive
ALTERs, and when `weight_kg` is NOT NULL rebuilds the table through a shadow
copy inside one BEGIN/COMMIT, rolling back on any failure; the whole routine
is wrapped so that it never raises.  Failure injection: `inj i = true` makes
the i-th statement of the rebuild transaction (0 = BEGIN, 1 = CREATE,
2 = INSERT..SELECT, 3 = DROP, 4 = RENAME, 5 = COMMIT) raise. -/

/-- Schema state plus contents of the `transactions` table. -/
structure TableState where
  has_collected_weight_kg : Bool
  has_collected_photo : Bool
  has_collected_at : Bool
  weight_notnull : Bool
  rows : List Transaction
deriving DecidableEq

/-- The migration statements `init_db` can perform (beyond create-if-absent). -/
inductive MigrationOp
  | alterAddColumn (col : String)
  | rebuildWeightNullable
deriving DecidableEq

/-- The row copy performed by
`INSERT INTO transactions_new (id, name, phone, wallet, weight_kg, address,
photo, date, status, collected_weight_kg, collected_photo, collected_at)
SELECT id, name, phone, wallet, weight_kg, address, photo, date, status,
collected_weight_kg, collected_photo, collected_at FROM transactions`:
the value selected for each source column is assigned to the
identically-named target column. -/
def copyRow (r : Transaction) : Transaction :=
  { id := r.id, name := r.name, phone := r.phone, wallet := r.wallet,
    weight_kg := r.weight_kg, address := r.address, photo := r.photo,
    date := r.date, status := r.status,
    collected_weight_kg := r.collected_weight_kg,
    collected_photo := r.collected_photo,
    collected_at := r.collected_at }

/-- The table as `Base.metadata.create_all` builds it on a fresh store:
all columns present, `weight_kg` nullable, no rows. -/
def freshTable : TableState :=
  { has_collected_weight_kg := true, has_collected_photo := true,
    has_collected_at := true, weight_notnull := false, rows := [] }

/-- The additive `ALTER TABLE transactions ADD COLUMN ...` statements, one
per missing `collected_*` column, in the order the source builds `alters`;
a freshly added column is NULL on every existing row. -/
def applyAlters (t : TableState) : TableState × List MigrationOp :=
  let s1 :=
    if t.has_collected_weight_kg then (t, ([] : List MigrationOp))
    else ({ t with
              has_collected_weight_kg := true,
              rows := t.rows.map (fun r => { r with collected_weight_kg := none }) },
          [MigrationOp.alterAddColumn "collected_weight_kg"])
  let s2 :=
    if s1.1.has_collected_photo then s1
    else ({ s1.1 with
              has_collected_photo := true,
              rows := s1.1.rows.map (fun r => { r with collected_photo := none }) },
          s1.2 ++ [MigrationOp.alterAddColumn "collected_photo"])
  let s3 :=
    if s2.1.has_collected_at then s2
    else ({ s2.1 with
              has_collected_at := true,
              rows := s2.1.rows.map (fun r => { r with collected_at := none }) },
          s2.2 ++ [MigrationOp.alterAddColumn "collected_at"])
  s3

/-- Working state of the rebuild transaction: the `transactions` table and
the `transactions_new` shadow table. -/
structure TxnWork where
  main : Option TableState
  shadow : Option TableState

/-- The statements of the rebuild transaction, executed in order; statement
`i` raises when `inj i` is `true`. -/
def rebuildE (t : TableState) (inj : ℕ → Bool) : Except Unit TableState :=
  -- BEGIN TRANSACTION
  if inj 0 then Except.error () else
  let w0 : TxnWork := ⟨some t, none⟩
  -- CREATE TABLE IF NOT EXISTS transactions_new (... weight_kg FLOAT ...)
  if inj 1 then Except.error () else
  let w1 : TxnWork := { w0 with shadow := some freshTable }
  -- INSERT INTO transactions_new (...) SELECT ... FROM transactions
  if inj 2 then Except.error () else
  let w2 : TxnWork :=
    { w1 with shadow := some { freshTable with rows := t.rows.map copyRow } }
  -- DROP TABLE transactions
  if inj 3 then Except.error () else
  let w3 : TxnWork := { w2 with main := none }
  -- ALTER TABLE transactions_new RENAME TO transactions
  if inj 4 then Except.error () else
  let w4 : TxnWork := ⟨w3.shadow, none⟩
  -- COMMIT
  if inj 5 then Except.error () else
  match w4.main with
  | some t' => Except.ok t'
  | none => Except.error ()

/-- The rebuild with its exception handler: a raise inside the transaction
triggers ROLLBACK, which restores the table as it was at BEGIN, and the
exception is swallowed (startup must not crash). -/
def rebuild (t : TableState) (inj : ℕ → Bool) : TableState :=
  match rebuildE t inj with
  | Except.ok t' => t'
  | Except.error _ => t

/-- `init_db`: create-if-absent, additive ALTERs, then the weight_kg
nullability rebuild when needed.  Also reports the migration statements it
ran, for the idempotence claim. -/
def init_db (db : Option TableState) (inj : ℕ → Bool) :
    Option TableState × List MigrationOp :=
  let t0 := match db with
    | none => freshTable
    | some t => t
  let s := applyAlters t0
  if s.1.weight_notnull then
    (some (rebuild s.1 inj), s.2 ++ [MigrationOp.rebuildWeightNullable])
  else
    (some s.1, s.2)

/-- No injected failure. -/
def noFail : ℕ → Bool := fun _ => false

theorem copyRow_eq_id : copyRow = id := funext fun _ => rfl

theorem rebuildE_of_fail (t : TableState) (inj : ℕ → Bool)
    (hfail : ∃ i, i ≤ 5 ∧ inj i = true) :
    rebuildE t inj = Except.error () := by
  obtain ⟨i, hi, hinj⟩ := hfail
  by_cases h0 : inj 0 = true
  · simp [rebuildE, h0]
  · by_cases h1 : inj 1 = true
    · simp [rebuildE, h0, h1]
    · by_cases h2 : inj 2 = true
      · simp [rebuildE, h0, h1, h2]
      · by_cases h3 : inj 3 = true
        · simp [rebuildE, h0, h1, h2, h3]
        · by_cases h4 : inj 4 = true
          · simp [rebuildE, h0, h1, h2, h3, h4]
          · by_cases h5 : inj 5 = true
            · simp [rebuildE, h0, h1, h2, h3, h4, h5]
            · exfalso
              interval_cases i <;> simp_all

theorem rebuild_of_fail (t : TableState) (inj : ℕ → Bool)
    (hfail : ∃ i, i ≤ 5 ∧ inj i = true) :
    rebuild t inj = t := by
  simp [rebuild, rebuildE_of_fail t inj hfail]

theorem rebuild_of_ok (t : TableState) (inj : ℕ → Bool)
    (hok : ∀ i, inj i = false) :
    rebuild t inj =
      { has_collected_weight_kg := true, has_collected_photo := true,
        has_collected_at := true, weight_notnull := false, rows := t.rows } := by
  simp [rebuild, rebuildE, hok 0, hok 1, hok 2, hok 3, hok 4, hok 5,
    freshTable, copyRow_eq_id]

/-- C3: if any statement of the weight_kg-nullability rebuild fails, the
transaction raises internally, the rollback leaves the `transactions` table
exactly as it was when the rebuild began (all rows, columns and ids intact),
and `init_db` still returns normally with the pre-rebuild (post-ALTER)
table; when no statement fails, the rebuilt table holds exactly the original
rows, copied verbatim with their ids, under the nullable-weight schema. -/
theorem c3_rebuild_rollback_and_copy (t : TableState) (inj : ℕ → Bool) :
    ((∃ i, i ≤ 5 ∧ inj i = true) →
      rebuildE t inj = Except.error () ∧
      rebuild t inj = t ∧
      (init_db (some t) inj).1 = some (applyAlters t).1) ∧
    ((∀ i, inj i = false) →
      rebuild t inj =
        { has_collected_weight_kg := true, has_collected_photo := true,
          has_collected_at := true, weight_notnull := false, rows := t.rows }) := by
  constructor
  · intro hfail
    refine ⟨rebuildE_of_fail t inj hfail, rebuild_of_fail t inj hfail, ?_⟩
    simp only [init_db]
    by_cases hw : (applyAlters t).1.weight_notnull
    · simp [hw, rebuild_of_fail (applyAlters t).1 inj hfail]
    · simp [hw]
  · exact rebuild_of_ok t inj

/-- A legacy table: no `collected_*` columns, NOT NULL `weight_kg`, one row. -/
def legacyRow : Transaction :=
  { id := 1, name := "Ana", phone := some "+15551234567",
    wallet := some "0xABCDEF123", weight_kg := some 2, address := none,
    photo := none, date := none, status := StatusEnum.pending,
    collected_weight_kg := none, collected_photo := none,
    collected_at := none }

def legacyTable : TableState :=
  { has_collected_weight_kg := false, has_collected_photo := false,
    has_collected_at := false, weight_notnull := true, rows := [legacyRow] }

/-- A failure injected at the DROP statement of the rebuild. -/
def injAtDrop : ℕ → Bool := fun i => i == 3

/-- Witness for C3 on the legacy table: a failure at DROP rolls back, a
clean run copies the row. -/
theorem c3_rebuild_rollback_and_copy_witness :
    (rebuildE legacyTable injAtDrop = Except.error () ∧
     rebuild legacyTable injAtDrop = legacyTable ∧
     (init_db (some legacyTable) injAtDrop).1 = some (applyAlters legacyTable).1) ∧
    rebuild legacyTable noFail =
      { has_collected_weight_kg := true, has_collected_photo := true,
        has_collected_at := true, weight_notnull := false,
        rows := legacyTable.rows } :=
  ⟨(c3_rebuild_rollback_and_copy legacyTable injAtDrop).1 ⟨3, by norm_num, rfl⟩,
   (c3_rebuild_rollback_and_copy legacyTable noFail).2 (fun _ => rfl)⟩

/-- A store on which every evolution check short-circuits. -/
def upgraded (t : TableState) : Prop :=
  t.has_collected_weight_kg = true ∧ t.has_collected_photo = true ∧
  t.has_collected_at = true ∧ t.weight_notnull = false

theorem applyAlters_flags (t : TableState) :
    (applyAlters t).1.has_collected_weight_kg = true ∧
    (applyAlters t).1.has_collected_photo = true ∧
    (applyAlters t).1.has_collected_at = true ∧
    (applyAlters t).1.weight_notnull = t.weight_notnull := by
  rcases t with ⟨a, b, c, w, rows⟩
  cases a <;> cases b <;> cases c <;> simp [applyAlters]

theorem init_db_upgraded (db : Option TableState) :
    ∃ t, (init_db db noFail).1 = some t ∧ upgraded t := by
  set t0 : TableState := (match db with | none => freshTable | some t => t) with ht0
  have hflags := applyAlters_flags t0
  by_cases hw : (applyAlters t0).1.weight_notnull
  · refine ⟨rebuild (applyAlters t0).1 noFail, ?_, ?_⟩
    · simp only [init_db, ← ht0]
      simp [hw]
    · rw [rebuild_of_ok (applyAlters t0).1 noFail (fun _ => rfl)]
      exact ⟨rfl, rfl, rfl, rfl⟩
  · refine ⟨(applyAlters t0).1, ?_, ?_⟩
    · simp only [init_db, ← ht0]
      simp [hw]
    · exact ⟨hflags.1, hflags.2.1, hflags.2.2.1,
        by simp [hflags.2.2.2] at hw ⊢; simpa using hw⟩

theorem init_db_noop (t : TableState) (h : upgraded t) :
    init_db (some t) noFail = (some t, []) := by
  obtain ⟨h1, h2, h3, h4⟩ := h
  simp [init_db, applyAlters, h1, h2, h3, h4]

/-- C4: evolve is idempotent — running `init_db` a second time returns the
store produced by the first run unchanged and performs zero ALTER and zero
rebuild statements; in particular on an already-upgraded store a run is a
complete no-op, every row byte-identical. -/
theorem c4_evolve_idempotent (db : Option TableState) :
    init_db (init_db db noFail).1 noFail = ((init_db db noFail).1, []) ∧
    (∀ t : TableState, upgraded t → init_db (some t) noFail = (some t, [])) := by
  constructor
  · obtain ⟨t, ht, hu⟩ := init_db_upgraded db
    rw [ht, init_db_noop t hu]
  · exact fun t ht => init_db_noop t ht

/-- Witness for C4: the legacy table is fully upgraded by one run, and the
fresh table is a fixed point with zero operations. -/
theorem c4_evolve_idempotent_witness :
    init_db (init_db (some legacyTable) noFail).1 noFail
      = ((init_db (some legacyTable) noFail).1, []) ∧
    (upgraded freshTable ∧ init_db (some freshTable) noFail = (some freshTable, [])) :=
  ⟨(c4_evolve_idempotent (some legacyTable)).1,
   ⟨⟨rfl, rfl, rfl, rfl⟩,
    (c4_evolve_idempotent none).2 freshTable ⟨rfl, rfl, rfl, rfl⟩⟩⟩

/-! ## Ledger operations (src/crud.py and the endpoint guards in src/main.py)

The store is the list of rows plus the next primary key.  `create` never
touches the `collected_*` fields; the status endpoint refuses a direct move
to `collected`; only the collect endpoint sets the collection outcome, in
one commit; delete removes the row. -/

/-- The transaction store with its id sequence. -/
structure Ledger where
  txs : List Transaction
  nextId : ℤ
deriving DecidableEq

/-- `crud.create_transaction` on a validated `TransactionCreate`: a fresh
`pending` row with a server-assigned date and all `collected_*` NULL. -/
def create_transaction (db : Ledger) (name : String) (phone wallet : Option String)
    (weight_kg : Option ℚ) (address photo : Option String) (now : ℚ) :
    Ledger × Transaction :=
  let tx : Transaction :=
    { id := db.nextId, name := name, phone := phone, wallet := wallet,
      weight_kg := weight_kg, address := address, photo := photo,
      date := some now, status := StatusEnum.pending,
      collected_weight_kg := none, collected_photo := none,
      collected_at := none }
  ({ txs := db.txs ++ [tx], nextId := db.nextId + 1 }, tx)

/-- `crud.get_transaction`: first row with the id. -/
def get_transaction (db : Ledger) (txId : ℤ) : Option Transaction :=
  db.txs.find? (fun t => decide (t.id = txId))

/-- Outcome of the status endpoint. -/
inductive PatchResult
  | badRequest
  | notFound
  | ok (t : Transaction)
deriving DecidableEq

/-- `PATCH /transactions/id/status` (`patch_status` plus
`crud.update_status`): a direct move to `collected` is refused with 400;
otherwise the row's status is replaced and nothing else changes. -/
def patch_status (db : Ledger) (txId : ℤ) (st : StatusEnum) :
    Ledger × PatchResult :=
  if st = StatusEnum.collected then (db, PatchResult.badRequest)
  else
    match get_transaction db txId with
    | none => (db, PatchResult.notFound)
    | some t0 =>
      let newTxs :=
        db.txs.map (fun t => if t.id = txId then { t with status := st } else t)
      ({ db with txs := newTxs }, PatchResult.ok { t0 with status := st })

/-- Outcome of the collect endpoint. -/
inductive CollectResult
  | validationError
  | notFound
  | ok (t : Transaction)
deriving DecidableEq

/-- The row mutation of `crud.collect_transaction`: record the collected
weight and photo, stamp `collected_at`, move to `collected`. -/
def collectUpd (cw : ℚ) (photo : Option String) (now : ℚ) (t : Transaction) :
    Transaction :=
  { t with
      collected_weight_kg := some cw,
      collected_photo := photo,
      collected_at := some now,
      status := StatusEnum.collected }

/-- `PATCH /transactions/id/collect` (`collect_transaction_endpoint` plus
`crud.collect_transaction`): `collected_weight` is required and must be
positive (400 otherwise, before the row lookup); a missing row is 404; the
uploaded photo is optional. -/
def collect_transaction_endpoint (db : Ledger) (txId : ℤ)
    (collected_weight : Option ℚ) (collected_photo : Option String) (now : ℚ) :
    Ledger × CollectResult :=
  match collected_weight with
  | none => (db, CollectResult.validationError)
  | some cw =>
    if cw ≤ 0 then (db, CollectResult.validationError)
    else
      match get_transaction db txId with
      | none => (db, CollectResult.notFound)
      | some t0 =>
        let newTxs :=
          db.txs.map
            (fun t => if t.id = txId then collectUpd cw collected_photo now t else t)
        ({ db with txs := newTxs }, CollectResult.ok (collectUpd cw collected_photo now t0))

/-- `DELETE /transactions/id`: remove the row when present. -/
def delete_transaction (db : Ledger) (txId : ℤ) : Ledger :=
  match get_transaction db txId with
  | none => db
  | some _ => { db with txs := db.txs.filter (fun t => decide (¬ t.id = txId)) }

/-- The boundary operations that mutate the ledger. -/
inductive LedgerOp
  | create (name : String) (phone wallet : Option String) (weight_kg : Option ℚ)
      (address photo : Option String) (now : ℚ)
  | patchStatusOp (txId : ℤ) (st : StatusEnum)
  | collectOp (txId : ℤ) (w : Option ℚ) (photo : Option String) (now : ℚ)
  | deleteOp (txId : ℤ)

/-- Apply one boundary operation to the store. -/
def applyOp (db : Ledger) : LedgerOp → Ledger
  | LedgerOp.create n p w wt a ph t => (create_transaction db n p w wt a ph t).1
  | LedgerOp.patchStatusOp i st => (patch_status db i st).1
  | LedgerOp.collectOp i w ph t => (collect_transaction_endpoint db i w ph t).1
  | LedgerOp.deleteOp i => delete_transaction db i

/-- Run a sequence of boundary operations. -/
def runOps (db : Ledger) (ops : List LedgerOp) : Ledger := ops.foldl applyOp db

/-- The row invariant exactly as C7 states it: the three `collected_*`
fields are non-null iff the status is `collected`. -/
def claimedCollectedIff (t : Transaction) : Prop :=
  (t.collected_weight_kg ≠ none ∧ t.collected_photo ≠ none ∧
    t.collected_at ≠ none) ↔ t.status = StatusEnum.collected

instance (t : Transaction) : Decidable (claimedCollectedIff t) := by
  unfold claimedCollectedIff
  infer_instance

/-- The empty store. -/
def emptyLedger : Ledger := { txs := [], nextId := 1 }

/-- A run that breaks the claimed iff in both directions: a collect with no
photo leaves `collected_photo` NULL on a `collected` row, and a later
status change away from `collected` keeps the collected fields populated. -/
def c7Run1 : List LedgerOp :=
  [LedgerOp.create "Ana" none none none none none 0,
   LedgerOp.collectOp 1 (some 2) none 10]

def c7Run2 : List LedgerOp :=
  [LedgerOp.create "Ana" none none none none none 0,
   LedgerOp.collectOp 1 (some 2) (some "p.jpg") 10,
   LedgerOp.patchStatusOp 1 StatusEnum.cancelled]

/-- Counterexample to C7 as stated: after `create` then `collect` with no
photo, the row is `collected` with `collected_photo` NULL; after a further
status patch to `cancelled`, the row keeps a non-null `collected_weight_kg`
while no longer `collected`.  Both final states violate the claimed iff. -/
theorem c7_counterexample :
    (∃ t ∈ (runOps emptyLedger c7Run1).txs,
      t.status = StatusEnum.collected ∧ t.collected_photo = none ∧
      ¬ claimedCollectedIff t) ∧
    (∃ t ∈ (runOps emptyLedger c7Run2).txs,
      t.status ≠ StatusEnum.collected ∧ t.collected_weight_kg ≠ none ∧
      ¬ claimedCollectedIff t) := by
  constructor
  · refine ⟨collectUpd 2 none 10
      ((create_transaction emptyLedger "Ana" none none none none none 0).2), ?_, ?_⟩
    · decide
    · decide
  · refine ⟨{ collectUpd 2 (some "p.jpg") 10
        ((create_transaction emptyLedger "Ana" none none none none none 0).2)
        with status := StatusEnum.cancelled }, ?_, ?_⟩
    · decide
    · decide

/-- The invariant that actually holds on every row: a `collected` row has a
non-null collected weight and timestamp (the photo may be NULL, and rows
moved away from `collected` may keep stale collected fields). -/
def collectedImpliesRecorded (t : Transaction) : Prop :=
  t.status = StatusEnum.collected →
    t.collected_weight_kg ≠ none ∧ t.collected_at ≠ none

instance (t : Transaction) : Decidable (collectedImpliesRecorded t) := by
  unfold collectedImpliesRecorded
  infer_instance

/-- C7 amended: `create` yields a `pending` row with all three `collected_*`
fields NULL; every boundary operation preserves the invariant that a
`collected` row carries a non-null collected weight and timestamp; and no
operation other than collect ever sets a `collected_*` field — after any
non-collect operation every row either keeps the collected fields of an
existing row or has all three NULL.  (The iff of the original claim fails:
the collect photo is optional and a status patch away from `collected`
leaves the collected fields in place.) -/
theorem c7_amended_collected_fields (db : Ledger) (op : LedgerOp) :
    (∀ name phone wallet wkg addr photo now,
      (create_transaction db name phone wallet wkg addr photo now).2.status
          = StatusEnum.pending ∧
      (create_transaction db name phone wallet wkg addr photo now).2.collected_weight_kg
          = none ∧
      (create_transaction db name phone wallet wkg addr photo now).2.collected_photo
          = none ∧
      (create_transaction db name phone wallet wkg addr photo now).2.collected_at
          = none) ∧
    ((∀ t ∈ db.txs, collectedImpliesRecorded t) →
      ∀ t ∈ (applyOp db op).txs, collectedImpliesRecorded t) ∧
    ((match op with
      | LedgerOp.collectOp _ _ _ _ => False
      | _ => True) →
      ∀ t' ∈ (applyOp db op).txs,
        (∃ t ∈ db.txs,
          t'.collected_weight_kg = t.collected_weight_kg ∧
          t'.collected_photo = t.collected_photo ∧
          t'.collected_at = t.collected_at) ∨
        (t'.collected_weight_kg = none ∧ t'.collected_photo = none ∧
          t'.collected_at = none)) := by
  refine ⟨fun _ _ _ _ _ _ _ => ⟨rfl, rfl, rfl, rfl⟩, ?_, ?_⟩
  · intro hinv t ht
    cases op with
    | create n p w wt a ph tm =>
      rcases List.mem_append.mp ht with h | h
      · exact hinv t h
      · have : t = (create_transaction db n p w wt a ph tm).2 := by simpa using h
        subst this
        intro hst
        cases hst
    | patchStatusOp i st =>
      simp only [applyOp, patch_status] at ht
      by_cases hcol : st = StatusEnum.collected
      · rw [if_pos hcol] at ht
        exact hinv t ht
      · rw [if_neg hcol] at ht
        cases hfind : get_transaction db i with
        | none => rw [hfind] at ht; exact hinv t ht
        | some t0 =>
          rw [hfind] at ht
          simp only [List.mem_map] at ht
          obtain ⟨u, hu, hut⟩ := ht
          by_cases hi : u.id = i
          · rw [if_pos hi] at hut
            subst hut
            intro hst
            exact absurd hst hcol
          · rw [if_neg hi] at hut
            subst hut
            exact hinv u hu
    | collectOp i w ph tm =>
      cases w with
      | none =>
        simp only [applyOp, collect_transaction_endpoint] at ht
        exact hinv t ht
      | some cw =>
        simp only [applyOp, collect_transaction_endpoint] at ht
        by_cases hpos : cw ≤ 0
        · rw [if_pos hpos] at ht
          exact hinv t ht
        · rw [if_neg hpos] at ht
          cases hfind : get_transaction db i with
          | none => rw [hfind] at ht; exact hinv t ht
          | some t0 =>
            rw [hfind] at ht
            simp only [List.mem_map] at ht
            obtain ⟨u, hu, hut⟩ := ht
            by_cases hi : u.id = i
            · rw [if_pos hi] at hut
              subst hut
              intro _
              exact ⟨by simp [collectUpd], by simp [collectUpd]⟩
            · rw [if_neg hi] at hut
              subst hut
              exact hinv u hu
    | deleteOp i =>
      simp only [applyOp, delete_transaction] at ht
      cases hfind : get_transaction db i with
      | none => rw [hfind] at ht; exact hinv t ht
      | some t0 =>
        rw [hfind] at ht
        exact hinv t (List.mem_of_mem_filter ht)
  · intro hop t' ht'
    cases op with
    | create n p w wt a ph tm =>
      rcases List.mem_append.mp ht' with h | h
      · exact Or.inl ⟨t', h, rfl, rfl, rfl⟩
      · have : t' = (create_transaction db n p w wt a ph tm).2 := by simpa using h
        subst this
        exact Or.inr ⟨rfl, rfl, rfl⟩
    | patchStatusOp i st =>
      simp only [applyOp, patch_status] at ht'
      by_cases hcol : st = StatusEnum.collected
      · rw [if_pos hcol] at ht'
        exact Or.inl ⟨t', ht', rfl, rfl, rfl⟩
      · rw [if_neg hcol] at ht'
        cases hfind : get_transaction db i with
        | none => rw [hfind] at ht'; exact Or.inl ⟨t', ht', rfl, rfl, rfl⟩
        | some t0 =>
          rw [hfind] at ht'
          simp only [List.mem_map] at ht'
          obtain ⟨u, hu, hut⟩ := ht'
          by_cases hi : u.id = i
          · rw [if_pos hi] at hut
            subst hut
            exact Or.inl ⟨u, hu, rfl, rfl, rfl⟩
          · rw [if_neg hi] at hut
            subst hut
            exact Or.inl ⟨u, hu, rfl, rfl, rfl⟩
    | collectOp i w ph tm => cases hop
    | deleteOp i =>
      simp only [applyOp, delete_transaction] at ht'
      cases hfind : get_transaction db i with
      | none => rw [hfind] at ht'; exact Or.inl ⟨t', ht', rfl, rfl, rfl⟩
      | some t0 =>
        rw [hfind] at ht'
        exact Or.inl ⟨t', List.mem_of_mem_filter ht', rfl, rfl, rfl⟩

/-- Witness for the amended C7 on a concrete store and operation. -/
theorem c7_amended_collected_fields_witness :
    ((∀ t ∈ (runOps emptyLedger c7Run1).txs, collectedImpliesRecorded t) →
      ∀ t ∈ (applyOp (runOps emptyLedger c7Run1)
          (LedgerOp.patchStatusOp 1 StatusEnum.cancelled)).txs,
        collectedImpliesRecorded t) ∧
    (∀ t ∈ (applyOp (runOps emptyLedger c7Run1)
        (LedgerOp.patchStatusOp 1 StatusEnum.cancelled)).txs,
      collectedImpliesRecorded t) :=
  ⟨(c7_amended_collected_fields (runOps emptyLedger c7Run1)
      (LedgerOp.patchStatusOp 1 StatusEnum.cancelled)).2.1,
   (c7_amended_collected_fields (runOps emptyLedger c7Run1)
      (LedgerOp.patchStatusOp 1 StatusEnum.cancelled)).2.1 (by decide)⟩

theorem collect_ep_nonpos (db : Ledger) (txId : ℤ) (cw : ℚ)
    (photo : Option String) (now : ℚ) (h : cw ≤ 0) :
    collect_transaction_endpoint db txId (some cw) photo now
      = (db, CollectResult.validationError) := by
  simp [collect_transaction_endpoint, h]

theorem collect_ep_notfound (db : Ledger) (txId : ℤ) (cw : ℚ)
    (photo : Option String) (now : ℚ) (h : ¬ cw ≤ 0)
    (hf : get_transaction db txId = none) :
    collect_transaction_endpoint db txId (some cw) photo now
      = (db, CollectResult.notFound) := by
  simp [collect_transaction_endpoint, h, hf]

theorem collect_ep_found (db : Ledger) (txId : ℤ) (cw : ℚ)
    (photo : Option String) (now : ℚ) (t0 : Transaction) (h : ¬ cw ≤ 0)
    (hf : get_transaction db txId = some t0) :
    collect_transaction_endpoint db txId (some cw) photo now
      = ({ db with
             txs := db.txs.map
               (fun t => if t.id = txId then collectUpd cw photo now t else t) },
         CollectResult.ok (collectUpd cw photo now t0)) := by
  simp [collect_transaction_endpoint, h, hf]

theorem get_transaction_eq_none_iff (db : Ledger) (txId : ℤ) :
    get_transaction db txId = none ↔ ∀ t ∈ db.txs, t.id ≠ txId := by
  simp [get_transaction, List.find?_eq_none]

/-- C8: the collect endpoint returns ValidationError exactly when the
collected weight is missing or non-positive (this check runs before the row
lookup); given a valid weight it returns NotFound exactly when no row has
the id; both error outcomes leave the store unchanged; and given a valid
weight and an existing row it succeeds, overwriting the collected weight,
photo and timestamp with the request values regardless of the prior state
of the row — in particular also when the row is already `collected`
(last write wins). -/
theorem c8_collect_endpoint (db : Ledger) (txId : ℤ) (w : Option ℚ)
    (photo : Option String) (now : ℚ) :
    ((collect_transaction_endpoint db txId w photo now).2
        = CollectResult.validationError
      ↔ (w = none ∨ ∃ cw, w = some cw ∧ cw ≤ 0)) ∧
    ((collect_transaction_endpoint db txId w photo now).2
        = CollectResult.notFound
      ↔ ((∃ cw, w = some cw ∧ 0 < cw) ∧ ∀ t ∈ db.txs, t.id ≠ txId)) ∧
    (((collect_transaction_endpoint db txId w photo now).2
        = CollectResult.validationError ∨
      (collect_transaction_endpoint db txId w photo now).2
        = CollectResult.notFound) →
      (collect_transaction_endpoint db txId w photo now).1 = db) ∧
    (∀ cw t0, w = some cw → 0 < cw → get_transaction db txId = some t0 →
      (collect_transaction_endpoint db txId w photo now).2
          = CollectResult.ok (collectUpd cw photo now t0) ∧
      (collectUpd cw photo now t0).collected_weight_kg = some cw ∧
      (collectUpd cw photo now t0).collected_photo = photo ∧
      (collectUpd cw photo now t0).collected_at = some now ∧
      (collectUpd cw photo now t0).status = StatusEnum.collected) := by
  cases hw : w with
  | none =>
    refine ⟨by simp [collect_transaction_endpoint], ?_, ?_, ?_⟩
    · simp [collect_transaction_endpoint]
    · intro _
      rfl
    · intro cw t0 hcw
      simp at hcw
  | some cw =>
    by_cases hpos : cw ≤ 0
    · rw [collect_ep_nonpos db txId cw photo now hpos]
      refine ⟨?_, ?_, fun _ => rfl, ?_⟩
      · simp only [iff_true_intro rfl, true_iff]
        exact Or.inr ⟨cw, rfl, hpos⟩
      · constructor
        · intro h
          cases h
        · rintro ⟨⟨c, hc, hcpos⟩, -⟩
          obtain rfl : cw = c := by simpa using hc
          exact absurd hcpos (not_lt.mpr hpos)
      · intro c t0 hc hcpos _
        obtain rfl : cw = c := by simpa using hc
        exact absurd hcpos (not_lt.mpr hpos)
    · cases hfind : get_transaction db txId with
      | none =>
        rw [collect_ep_notfound db txId cw photo now hpos hfind]
        refine ⟨?_, ?_, fun _ => rfl, ?_⟩
        · constructor
          · intro h
            cases h
          · rintro (h | ⟨c, hc, hcle⟩)
            · cases h
            · obtain rfl : cw = c := by simpa using hc
              exact absurd hcle hpos
        · simp only [iff_true_intro rfl, true_iff]
          exact ⟨⟨cw, rfl, lt_of_not_le hpos⟩,
            (get_transaction_eq_none_iff db txId).mp hfind⟩
        · intro c t1 hc _ hfind'
          simp at hfind'
      | some t0 =>
        rw [collect_ep_found db txId cw photo now t0 hpos hfind]
        refine ⟨?_, ?_, ?_, ?_⟩
        · constructor
          · intro h
            cases h
          · rintro (h | ⟨c, hc, hcle⟩)
            · cases h
            · obtain rfl : cw = c := by simpa using hc
              exact absurd hcle hpos
        · constructor
          · intro h
            cases h
          · rintro ⟨-, hall⟩
            have hmem := List.mem_of_find?_eq_some hfind
            have hid : t0.id = txId := by
              have := List.find?_some hfind
              simpa using this
            exact absurd hid (hall t0 hmem)
        · intro h
          rcases h with h | h <;> cases h
        · intro c t1 hc _ hfind'
          obtain rfl : cw = c := by simpa using hc
          have ht01 : t0 = t1 := by simpa using hfind'
          subst ht01
          exact ⟨rfl, rfl, rfl, rfl, rfl⟩

/-- A one-row store for the collect witness, holding an already-collected
row so the witness also exercises the overwrite case. -/
def c8Ledger : Ledger :=
  (collect_transaction_endpoint
    (create_transaction emptyLedger "Bob" none none none none none 0).1
    1 (some 5) (some "old.jpg") 3).1

/-- Witness for C8: re-collecting the already-collected row 1 of
`c8Ledger` with weight 3 succeeds and overwrites the collected fields. -/
theorem c8_collect_endpoint_witness :
    (collect_transaction_endpoint c8Ledger 1 (some 3) none 7).2
        = CollectResult.ok
            (collectUpd 3 none 7
              (collectUpd 5 (some "old.jpg") 3
                (create_transaction emptyLedger "Bob" none none none none none 0).2)) ∧
    (collectUpd 3 none 7
        (collectUpd 5 (some "old.jpg") 3
          (create_transaction emptyLedger "Bob" none none none none none 0).2)).collected_weight_kg
      = some 3 :=
  ⟨((c8_collect_endpoint c8Ledger 1 (some 3) none 7).2.2.2 3
      (collectUpd 5 (some "old.jpg") 3
        (create_transaction emptyLedger "Bob" none none none none none 0).2)
      rfl (by decide) (by decide)).1,
   ((c8_collect_endpoint c8Ledger 1 (some 3) none 7).2.2.2 3
      (collectUpd 5 (some "old.jpg") 3
        (create_transaction emptyLedger "Bob" none none none none none 0).2)
      rfl (by decide) (by decide)).2.1⟩

/-! ## Ranking and aggregates (src/main.py: ranking, ranking_contributors,
get_stats)

The `ranking` endpoint is a SQL pipeline: filter to collected rows, group
by the wallet-else-phone identity, SUM the collected weights (SQL SUM skips
NULLs and is NULL on an all-NULL group), take MAX(id) per group, join back
on that id for the representative row, order by total descending, limit,
then render. -/

/-- The identity CASE expression: the wallet when non-NULL and non-empty,
else the phone. -/
def identityOf (t : Transaction) : Option String :=
  match t.wallet with
  | some w => if w = "" then t.phone else some w
  | none => t.phone

/-- SQL `SUM`: NULL entries are skipped; an empty or all-NULL input sums to
NULL. -/
def sqlSum : List (Option ℚ) → Option ℚ
  | [] => none
  | none :: rest => sqlSum rest
  | some q :: rest =>
    match sqlSum rest with
    | none => some q
    | some s => some (q + s)

theorem sqlSum_getD (l : List (Option ℚ)) :
    (sqlSum l).getD 0 = (l.map (fun o => o.getD 0)).sum := by
  induction l with
  | nil => rfl
  | cons x rest ih =>
    cases x with
    | none => simpa [sqlSum] using ih
    | some q =>
      cases h : sqlSum rest with
      | none =>
        rw [h] at ih
        simp [sqlSum, h, ← ih]
      | some s =>
        rw [h] at ih
        simp [sqlSum, h, ← ih]

/-- The rows the ranking aggregates over: `status == collected`. -/
def collectedOf (txs : List Transaction) : List Transaction :=
  txs.filter (fun t => decide (t.status = StatusEnum.collected))

/-- One identity group among the collected rows. -/
def groupOf (txs : List Transaction) (i : Option String) : List Transaction :=
  (collectedOf txs).filter (fun t => decide (identityOf t = i))

/-- Aggregate subquery output: identity, summed collected weight, MAX(id). -/
structure AggRow where
  ident : Option String
  total_kg : Option ℚ
  last_id : ℤ
deriving DecidableEq

/-- The GROUP BY subquery: one aggregate row per distinct identity among
the collected rows. -/
def aggRows (txs : List Transaction) : List AggRow :=
  ((collectedOf txs).map identityOf).dedup.map (fun i =>
    { ident := i,
      total_kg := sqlSum ((groupOf txs i).map Transaction.collected_weight_kg),
      last_id := ((groupOf txs i).map Transaction.id).maximum.unbot' 0 })

/-- One joined row: the aggregate plus the name, wallet and phone of the
representative transaction. -/
structure RankRow where
  ident : Option String
  total_kg : Option ℚ
  name : String
  wallet : Option String
  phone : Option String
deriving DecidableEq

/-- The join back onto `transactions` on `id == last_id` (an inner join:
a group whose MAX(id) matches no row would simply drop out). -/
def joinRows (txs : List Transaction) : List RankRow :=
  (aggRows txs).filterMap (fun a =>
    (txs.find? (fun t => decide (t.id = a.last_id))).map (fun rep =>
      { ident := a.ident, total_kg := a.total_kg, name := rep.name,
        wallet := rep.wallet, phone := rep.phone }))

/-- SQL ordering on the summed totals: NULL is smallest. -/
def sqlLeB : Option ℚ → Option ℚ → Bool
  | none, _ => true
  | some _, none => false
  | some a, some b => decide (a ≤ b)

/-- `ORDER BY total_kg DESC` as a relation on joined rows. -/
def totalDescRel (a b : RankRow) : Prop := sqlLeB b.total_kg a.total_kg = true

instance : DecidableRel totalDescRel := fun a b => by
  unfold totalDescRel
  infer_instance

theorem sqlLeB_total (x y : Option ℚ) : sqlLeB x y = true ∨ sqlLeB y x = true := by
  cases x <;> cases y <;> simp [sqlLeB, le_total]

theorem sqlLeB_trans (x y z : Option ℚ) (h1 : sqlLeB x y = true)
    (h2 : sqlLeB y z = true) : sqlLeB x z = true := by
  cases x <;> cases y <;> cases z <;> simp_all [sqlLeB]
  all_goals linarith

instance : IsTotal RankRow totalDescRel :=
  ⟨fun a b => (sqlLeB_total b.total_kg a.total_kg).elim Or.inl Or.inr⟩

instance : IsTrans RankRow totalDescRel :=
  ⟨fun a b c hab hbc => sqlLeB_trans c.total_kg b.total_kg a.total_kg hbc hab⟩

/-- The ordered, truncated rows of the ranking query. -/
def ranking_rows (txs : List Transaction) (limit : ℕ) : List RankRow :=
  (List.insertionSort totalDescRel (joinRows txs)).take limit

/-- Python `str.strip()`. -/
def pyStrip (s : String) : String :=
  String.mk (((s.toList.dropWhile Char.isWhitespace).reverse.dropWhile
    Char.isWhitespace).reverse)

/-- Python `str(...)` on a nullable string, as the f-string interpolates it. -/
def pyStr : Option String → String
  | none => "None"
  | some s => s

/-- `mask_phone`: a falsy value (None or the empty string) is returned
unchanged; otherwise four stars followed by the digits, truncated to the
last four when more than four exist. -/
def mask_phone : Option String → Option String
  | none => none
  | some p =>
    if p = "" then some "" else
    let digits := p.toList.filter Char.isDigit
    if digits.length ≤ 4 then some ("****" ++ String.mk digits)
    else some ("****" ++ String.mk (digits.drop (digits.length - 4)))

/-- A rendered leaderboard entry. -/
structure LeaderboardEntry where
  kind : String
  identifier : Option String
  display_name : String
  rep_name : String
  wallet_pfx : Option String
  total_kg : ℚ
deriving DecidableEq

/-- Python truthiness-plus-strip test selecting the "wallet" entry type:
`wallet and str(wallet).strip() != ''`. -/
def walletTruthy : Option String → Bool
  | none => false
  | some w => if w = "" then false else decide (¬ pyStrip w = "")

/-- Rendering of one joined row into a leaderboard entry. -/
def renderEntry (r : RankRow) : LeaderboardEntry :=
  let rep_name := pyStrip r.name
  let shown := if rep_name = "" then "anonymous" else rep_name
  if walletTruthy r.wallet then
    { kind := "wallet", identifier := r.ident,
      display_name := shown ++ " (" ++ String.mk ((pyStr r.ident).toList.take 4) ++ ")",
      rep_name := rep_name,
      wallet_pfx := some (String.mk ((pyStr r.ident).toList.take 4)),
      total_kg := r.total_kg.getD 0 }
  else
    { kind := "phone", identifier := r.ident,
      display_name := shown ++ " (" ++ pyStr (mask_phone r.ident) ++ ")",
      rep_name := rep_name,
      wallet_pfx := none,
      total_kg := r.total_kg.getD 0 }

/-- `GET /ranking`. -/
def ranking (txs : List Transaction) (limit : ℕ) : List LeaderboardEntry :=
  (ranking_rows txs limit).map renderEntry

/-- One line of the contributors breakdown. -/
structure Contribution where
  wallet : Option String
  phone : Option String
  kg : ℚ
deriving DecidableEq

/-- `GET /ranking/identifier/contributors` (`ranking_contributors`): rows
whose wallet or phone equals the identifier, grouped by the (wallet, phone)
pair, with SUM(weight_kg) rendered as `float(kg or 0)`. -/
def ranking_contributors (txs : List Transaction) (idf : String) :
    List Contribution :=
  let ms := txs.filter (fun t => decide (t.wallet = some idf ∨ t.phone = some idf))
  ((ms.map (fun t => (t.wallet, t.phone))).dedup).map (fun pr =>
    { wallet := pr.1, phone := pr.2,
      kg := (sqlSum ((ms.filter (fun t => decide ((t.wallet, t.phone) = pr))).map
        Transaction.weight_kg)).getD 0 })

/-- `GET /stats` (`get_stats`): SUM of `collected_weight_kg` over all rows
(`or 0` for an empty/NULL sum) and COUNT of all rows. -/
def get_stats (txs : List Transaction) : ℚ × ℕ :=
  ((sqlSum (txs.map Transaction.collected_weight_kg)).getD 0, txs.length)

/-- C10: the stats total sums `collected_weight_kg` over all rows with no
status filter whatsoever — replacing every row's status by anything leaves
the stats unchanged, so a non-collected row with a populated
`collected_weight_kg` still counts — and the empty store reports 0 for the
total and 0 for the count. -/
theorem c10_stats_unfiltered (txs : List Transaction) :
    (get_stats txs).1 = (txs.map (fun t => t.collected_weight_kg.getD 0)).sum ∧
    (get_stats txs).2 = txs.length ∧
    get_stats [] = (0, 0) ∧
    (∀ st : StatusEnum,
      get_stats (txs.map (fun t => { t with status := st })) = get_stats txs) := by
  refine ⟨?_, rfl, rfl, ?_⟩
  · rw [get_stats]
    rw [sqlSum_getD, List.map_map]
    rfl
  · intro st
    simp [get_stats, List.map_map]
    rfl

theorem mem_pair_dedup_of_matches (txs : List Transaction) (idf : String)
    (t : Transaction) (ht : t ∈ txs) (hm : t.wallet = some idf ∨ t.phone = some idf) :
    (t.wallet, t.phone) ∈
      ((txs.filter (fun t => decide (t.wallet = some idf ∨ t.phone = some idf))).map
        (fun t => (t.wallet, t.phone))).dedup := by
  rw [List.mem_dedup]
  exact List.mem_map_of_mem _ (List.mem_filter.mpr ⟨ht, by simpa using hm⟩)

/-- C9: every contributors line carries a (wallet, phone) pair one of whose
components equals the identifier verbatim, and reports the sum of the
submitted `weight_kg` (NULL as 0) over all transactions with exactly that
pair — every status included; conversely every transaction matching the
identifier contributes its pair, and the pairs are listed without
duplicates. -/
theorem c9_contributors_exact (txs : List Transaction) (idf : String) :
    (∀ e ∈ ranking_contributors txs idf,
      (e.wallet = some idf ∨ e.phone = some idf) ∧
      e.kg = ((txs.filter
          (fun t => decide (t.wallet = e.wallet ∧ t.phone = e.phone))).map
            (fun t => t.weight_kg.getD 0)).sum) ∧
    (∀ t ∈ txs, (t.wallet = some idf ∨ t.phone = some idf) →
      (t.wallet, t.phone) ∈
        (ranking_contributors txs idf).map (fun e => (e.wallet, e.phone))) ∧
    ((ranking_contributors txs idf).map (fun e => (e.wallet, e.phone))).Nodup := by
  have hmapout : (ranking_contributors txs idf).map (fun e => (e.wallet, e.phone))
      = ((txs.filter (fun t => decide (t.wallet = some idf ∨ t.phone = some idf))).map
          (fun t => (t.wallet, t.phone))).dedup := by
    rw [ranking_contributors]
    rw [List.map_map]
    have h1 : ∀ pr ∈ ((txs.filter
          (fun t => decide (t.wallet = some idf ∨ t.phone = some idf))).map
            (fun t => (t.wallet, t.phone))).dedup,
        ((fun (e : Contribution) => (e.wallet, e.phone)) ∘ fun pr =>
          { wallet := pr.1, phone := pr.2,
            kg := (sqlSum (((txs.filter
              (fun t => decide (t.wallet = some idf ∨ t.phone = some idf))).filter
                (fun t => decide ((t.wallet, t.phone) = pr))).map
                  Transaction.weight_kg)).getD 0 }) pr = id pr :=
      fun pr _ => rfl
    rw [List.map_congr_left h1, List.map_id]
  refine ⟨?_, ?_, ?_⟩
  · intro e he
    rw [ranking_contributors] at he
    simp only [List.mem_map] at he
    obtain ⟨pr, hpr, hpre⟩ := he
    have hprm := List.mem_dedup.mp hpr
    obtain ⟨t, htm, hpt⟩ := List.mem_map.mp hprm
    have htf := List.mem_filter.mp htm
    have hmatch : t.wallet = some idf ∨ t.phone = some idf := by
      simpa using htf.2
    subst hpt
    subst hpre
    have hfeq : (txs.filter
          (fun u => decide (u.wallet = some idf ∨ u.phone = some idf))).filter
            (fun u => decide ((u.wallet, u.phone) = (t.wallet, t.phone)))
        = txs.filter (fun u => decide (u.wallet = t.wallet ∧ u.phone = t.phone)) := by
      rw [List.filter_filter]
      apply List.filter_congr
      intro u _
      by_cases hp : u.wallet = t.wallet ∧ u.phone = t.phone
      · have hm2 : u.wallet = some idf ∨ u.phone = some idf := by
          rcases hmatch with h | h
          · exact Or.inl (hp.1.trans h)
          · exact Or.inr (hp.2.trans h)
        have d1 : decide ((u.wallet, u.phone) = (t.wallet, t.phone)) = true := by
          simp only [decide_eq_true_eq, Prod.mk.injEq]
          exact ⟨hp.1, hp.2⟩
        have d2 : decide (u.wallet = some idf ∨ u.phone = some idf) = true := by
          simp only [decide_eq_true_eq]
          exact hm2
        have d3 : decide (u.wallet = t.wallet ∧ u.phone = t.phone) = true := by
          simp only [decide_eq_true_eq]
          exact hp
        rw [d1, d2, d3]
        rfl
      · have d1 : decide ((u.wallet, u.phone) = (t.wallet, t.phone)) = false := by
          simp only [decide_eq_false_iff_not, Prod.mk.injEq]
          exact hp
        have d3 : decide (u.wallet = t.wallet ∧ u.phone = t.phone) = false := by
          simp only [decide_eq_false_iff_not]
          exact hp
        rw [d1, d3]
        rfl
    refine ⟨hmatch, ?_⟩
    show (sqlSum (((txs.filter
        (fun u => decide (u.wallet = some idf ∨ u.phone = some idf))).filter
          (fun u => decide ((u.wallet, u.phone) = (t.wallet, t.phone)))).map
            Transaction.weight_kg)).getD 0
      = ((txs.filter (fun u => decide (u.wallet = t.wallet ∧ u.phone = t.phone))).map
          (fun u => u.weight_kg.getD 0)).sum
    rw [hfeq, sqlSum_getD, List.map_map]
    rfl
  · intro t ht hm
    rw [hmapout]
    exact mem_pair_dedup_of_matches txs idf t ht hm
  · rw [hmapout]
    exact List.nodup_dedup _

theorem collectedOf_idem (txs : List Transaction) :
    collectedOf (collectedOf txs) = collectedOf txs := by
  rw [collectedOf, collectedOf, List.filter_filter]
  apply List.filter_congr
  intro t _
  cases h : decide (t.status = StatusEnum.collected) <;> simp [h]

theorem mem_groupOf {txs : List Transaction} {i : Option String} {t : Transaction} :
    t ∈ groupOf txs i ↔
      t ∈ txs ∧ t.status = StatusEnum.collected ∧ identityOf t = i := by
  constructor
  · intro h
    have h1 := List.mem_filter.mp h
    have h2 := List.mem_filter.mp h1.1
    exact ⟨h2.1, by simpa using h2.2, by simpa using h1.2⟩
  · rintro ⟨h1, h2, h3⟩
    exact List.mem_filter.mpr
      ⟨List.mem_filter.mpr ⟨h1, by simpa using h2⟩, by simpa using h3⟩

theorem groupOf_nonempty {txs : List Transaction} {i : Option String}
    (hi : i ∈ ((collectedOf txs).map identityOf).dedup) :
    ∃ t, t ∈ groupOf txs i := by
  rw [List.mem_dedup] at hi
  obtain ⟨t, ht, rfl⟩ := List.mem_map.mp hi
  exact ⟨t, List.mem_filter.mpr ⟨ht, by simp⟩⟩

theorem find?_id_eq {txs : List Transaction} (hids : (txs.map Transaction.id).Nodup)
    {x : Transaction} (hx : x ∈ txs) {m : ℤ} (hxm : x.id = m) :
    txs.find? (fun t => decide (t.id = m)) = some x := by
  induction txs with
  | nil => cases hx
  | cons a rest ih =>
    rw [List.map_cons, List.nodup_cons] at hids
    rcases List.mem_cons.mp hx with rfl | hxr
    · rw [List.find?_cons_of_pos]
      simp [hxm]
    · have hax : ¬ a.id = m := by
        intro h
        have hxid : x.id ∈ rest.map Transaction.id := List.mem_map_of_mem _ hxr
        rw [hxm, ← h] at hxid
        exact hids.1 hxid
      rw [List.find?_cons_of_neg]
      · exact ih hids.2 hxr
      · simp [hax]

theorem groupMax_spec {txs : List Transaction} {i : Option String}
    (h : ∃ t, t ∈ groupOf txs i) :
    ∃ g0 ∈ groupOf txs i,
      g0.id = ((groupOf txs i).map Transaction.id).maximum.unbot' 0 ∧
      ∀ t ∈ groupOf txs i, t.id ≤ g0.id := by
  obtain ⟨t0, ht0⟩ := h
  cases hmax : ((groupOf txs i).map Transaction.id).maximum with
  | bot =>
    rw [List.maximum_eq_bot] at hmax
    have hmem : t0.id ∈ (groupOf txs i).map Transaction.id :=
      List.mem_map_of_mem _ ht0
    rw [hmax] at hmem
    cases hmem
  | coe m =>
    have hspec := List.maximum_eq_coe_iff.mp hmax
    obtain ⟨g0, hg0, hg0id⟩ := List.mem_map.mp hspec.1
    refine ⟨g0, hg0, ?_, ?_⟩
    · rw [WithBot.unbot'_coe]
      exact hg0id
    · intro t ht
      have := hspec.2 t.id (List.mem_map_of_mem _ ht)
      rw [hg0id]
      exact this

theorem aggRows_mem {txs : List Transaction} {a : AggRow} (ha : a ∈ aggRows txs) :
    ∃ i ∈ ((collectedOf txs).map identityOf).dedup,
      a = { ident := i,
            total_kg := sqlSum ((groupOf txs i).map Transaction.collected_weight_kg),
            last_id := ((groupOf txs i).map Transaction.id).maximum.unbot' 0 } := by
  rw [aggRows] at ha
  obtain ⟨i, hi, rfl⟩ := List.mem_map.mp ha
  exact ⟨i, hi, rfl⟩

theorem nodup_ids_collectedOf {txs : List Transaction}
    (hids : (txs.map Transaction.id).Nodup) :
    ((collectedOf txs).map Transaction.id).Nodup :=
  List.Nodup.sublist (List.Sublist.map _ (List.filter_sublist _)) hids

/-- For every aggregate row, the join-back lookup on `last_id` finds the
group member with the maximal id — both over the full table and over the
collected rows. -/
theorem join_find_spec {txs : List Transaction}
    (hids : (txs.map Transaction.id).Nodup) {a : AggRow} (ha : a ∈ aggRows txs) :
    ∃ g0 ∈ groupOf txs a.ident,
      txs.find? (fun t => decide (t.id = a.last_id)) = some g0 ∧
      (collectedOf txs).find? (fun t => decide (t.id = a.last_id)) = some g0 ∧
      g0.id = a.last_id ∧
      ∀ t ∈ groupOf txs a.ident, t.id ≤ g0.id := by
  obtain ⟨i, hi, rfl⟩ := aggRows_mem ha
  obtain ⟨g0, hg0, hg0id, hg0max⟩ := groupMax_spec (groupOf_nonempty hi)
  have hg0txs : g0 ∈ txs := (mem_groupOf.mp hg0).1
  have hg0coll : g0 ∈ collectedOf txs :=
    List.mem_filter.mpr ⟨hg0txs, by simp [(mem_groupOf.mp hg0).2.1]⟩
  exact ⟨g0, hg0, find?_id_eq hids hg0txs hg0id,
    find?_id_eq (nodup_ids_collectedOf hids) hg0coll hg0id, hg0id, hg0max⟩

theorem length_filterMap_of_isSome {α β : Type} (f : α → Option β) (l : List α)
    (h : ∀ a ∈ l, (f a).isSome) : (l.filterMap f).length = l.length := by
  induction l with
  | nil => rfl
  | cons a rest ih =>
    cases hfa : f a with
    | none =>
      have := h a (by simp)
      rw [hfa] at this
      cases this
    | some b =>
      rw [List.filterMap_cons, hfa]
      simp only [List.length_cons]
      rw [ih (fun x hx => h x (by simp [hx]))]

/-- C5: with unique ids (the primary key), every ranked row is the
aggregate of one identity group among the collected transactions — its
total is the SQL sum of the collected weights of the group and its
representative fields come from the group member of maximal id; the output
is ordered by total descending and truncated to the limit (its length is
the number of identity groups capped at the limit); and transactions whose
status is not `collected` are ignored entirely: ranking the collected
subset gives the identical output. -/
theorem c5_rank_pipeline (txs : List Transaction) (limit : ℕ)
    (hids : (txs.map Transaction.id).Nodup) :
    (∀ r ∈ ranking_rows txs limit,
      (∃ t ∈ collectedOf txs, identityOf t = r.ident) ∧
      r.total_kg = sqlSum ((groupOf txs r.ident).map Transaction.collected_weight_kg) ∧
      (∃ rep ∈ groupOf txs r.ident,
        r.name = rep.name ∧ r.wallet = rep.wallet ∧ r.phone = rep.phone ∧
        ∀ t ∈ groupOf txs r.ident, t.id ≤ rep.id)) ∧
    List.Pairwise totalDescRel (ranking_rows txs limit) ∧
    (ranking_rows txs limit).length
      = min limit ((collectedOf txs).map identityOf).dedup.length ∧
    ranking_rows txs limit = ranking_rows (collectedOf txs) limit := by
  refine ⟨?_, ?_, ?_, ?_⟩
  · intro r hr
    have hr1 : r ∈ List.insertionSort totalDescRel (joinRows txs) :=
      List.mem_of_mem_take hr
    have hr2 : r ∈ joinRows txs := (List.mem_insertionSort _).mp hr1
    rw [joinRows] at hr2
    obtain ⟨a, ha, hfa⟩ := List.mem_filterMap.mp hr2
    obtain ⟨g0, hg0, hftxs, hfcoll, hg0id, hg0max⟩ := join_find_spec hids ha
    rw [hftxs] at hfa
    have hra : r = { ident := a.ident, total_kg := a.total_kg, name := g0.name,
                     wallet := g0.wallet, phone := g0.phone } := by
      simp only [Option.map_some', Option.some.injEq] at hfa
      exact hfa.symm
    obtain ⟨i, hi, haeq⟩ := aggRows_mem ha
    refine ⟨?_, ?_, ?_⟩
    · rw [List.mem_dedup] at hi
      obtain ⟨t, ht, hti⟩ := List.mem_map.mp hi
      refine ⟨t, ht, ?_⟩
      rw [hra, haeq]
      exact hti
    · rw [hra, haeq]
    · refine ⟨g0, ?_, ?_, ?_, ?_, ?_⟩
      · rw [hra]
        exact hg0
      · rw [hra]
      · rw [hra]
      · rw [hra]
      · rw [hra]
        exact hg0max
  · exact List.Pairwise.sublist (List.take_sublist _ _)
      (List.sorted_insertionSort totalDescRel (joinRows txs))
  · rw [ranking_rows, List.length_take]
    congr 1
    rw [(List.perm_insertionSort totalDescRel (joinRows txs)).length_eq]
    rw [joinRows]
    rw [length_filterMap_of_isSome]
    · rw [aggRows, List.length_map]
    · intro a ha
      obtain ⟨g0, _, hftxs, _, _, _⟩ := join_find_spec hids ha
      rw [hftxs]
      rfl
  · have haggeq : aggRows (collectedOf txs) = aggRows txs := by
      simp only [aggRows, groupOf, collectedOf_idem]
    have hjoin : joinRows (collectedOf txs) = joinRows txs := by
      rw [joinRows, joinRows, haggeq]
      apply List.filterMap_congr
      intro a ha
      obtain ⟨g0, _, hftxs, hfcoll, _, _⟩ := join_find_spec hids ha
      rw [hftxs, hfcoll]
    rw [ranking_rows, ranking_rows, hjoin]

/-- A store for the contributors witness: two rows share the wallet, one of
them pending, plus an unrelated row. -/
def c9Txs : List Transaction :=
  [{ id := 1, name := "Wil", phone := some "+111", wallet := some "W",
     weight_kg := some 1, address := none, photo := none, date := none,
     status := StatusEnum.collected, collected_weight_kg := some 1,
     collected_photo := none, collected_at := none },
   { id := 2, name := "Wil", phone := some "+222", wallet := some "W",
     weight_kg := some 4, address := none, photo := none, date := none,
     status := StatusEnum.pending, collected_weight_kg := none,
     collected_photo := none, collected_at := none },
   { id := 3, name := "Oda", phone := some "+333", wallet := some "X",
     weight_kg := some 7, address := none, photo := none, date := none,
     status := StatusEnum.collected, collected_weight_kg := some 7,
     collected_photo := none, collected_at := none }]

/-- Witness for C9: the pending row 2 of `c9Txs` matches identifier "W" and
its (wallet, phone) pair appears in the contributors output. -/
theorem c9_contributors_exact_witness :
    ((c9Txs.get? 1).map Transaction.wallet = some (some "W")) ∧
    ({ id := 2, name := "Wil", phone := some "+222", wallet := some "W",
       weight_kg := some 4, address := none, photo := none, date := none,
       status := StatusEnum.pending, collected_weight_kg := none,
       collected_photo := none, collected_at := none } : Transaction).wallet
      = some "W" ∧
    (some "W", some "+222") ∈
      (ranking_contributors c9Txs "W").map (fun e => (e.wallet, e.phone)) :=
  ⟨by decide, by decide,
   (c9_contributors_exact c9Txs "W").2.1
     { id := 2, name := "Wil", phone := some "+222", wallet := some "W",
       weight_kg := some 4, address := none, photo := none, date := none,
       status := StatusEnum.pending, collected_weight_kg := none,
       collected_photo := none, collected_at := none }
     (by decide) (by decide)⟩

/-- A store with two wallet identities (a tie at 5 kg), plus a pending row
whose populated `collected_weight_kg` must be ignored. -/
def c5Txs : List Transaction :=
  [{ id := 1, name := "A1", phone := none, wallet := some "A", weight_kg := none,
     address := none, photo := none, date := none, status := StatusEnum.collected,
     collected_weight_kg := some 3, collected_photo := none, collected_at := none },
   { id := 2, name := "A2", phone := none, wallet := some "A", weight_kg := none,
     address := none, photo := none, date := none, status := StatusEnum.collected,
     collected_weight_kg := some 2, collected_photo := none, collected_at := none },
   { id := 3, name := "B1", phone := none, wallet := some "B", weight_kg := none,
     address := none, photo := none, date := none, status := StatusEnum.collected,
     collected_weight_kg := some 5, collected_photo := none, collected_at := none },
   { id := 4, name := "P", phone := some "+15551234567", wallet := none,
     weight_kg := some 1, address := none, photo := none, date := none,
     status := StatusEnum.pending, collected_weight_kg := some 9,
     collected_photo := none, collected_at := none }]

/-- Witness for C5 on `c5Txs`. -/
theorem c5_rank_pipeline_witness :
    (c5Txs.map Transaction.id).Nodup ∧
    List.Pairwise totalDescRel (ranking_rows c5Txs 10) ∧
    ranking_rows c5Txs 10 = ranking_rows (collectedOf c5Txs) 10 :=
  ⟨by decide, (c5_rank_pipeline c5Txs 10 (by decide)).2.1,
   (c5_rank_pipeline c5Txs 10 (by decide)).2.2.2⟩

/-- The phone mask exactly as C6 words it: four stars followed by the last
four digits, or by all the digits when fewer than four exist. -/
def specMaskPhone (p : String) : String :=
  let digits := p.toList.filter Char.isDigit
  if digits.length < 4 then "****" ++ String.mk digits
  else "****" ++ String.mk (digits.drop (digits.length - 4))

def c6TxEmptyPhone : Transaction :=
  { id := 1, name := "Ana", phone := some "", wallet := none, weight_kg := none,
    address := none, photo := none, date := none, status := StatusEnum.collected,
    collected_weight_kg := some 2, collected_photo := none, collected_at := none }

def c6TxSpaceWallet : Transaction :=
  { id := 1, name := "Bob", phone := none, wallet := some " ", weight_kg := none,
    address := none, photo := none, date := none, status := StatusEnum.collected,
    collected_weight_kg := some 2, collected_photo := none, collected_at := none }

def c6TxSpaceName : Transaction :=
  { id := 1, name := " ", phone := none, wallet := some "0xABCDEF123",
    weight_kg := none, address := none, photo := none, date := none,
    status := StatusEnum.collected, collected_weight_kg := some 2,
    collected_photo := none, collected_at := none }

/-- Counterexample to C6 as stated.  (1) A collected row whose identity is
the empty phone string renders as `Ana ()` — the falsy value passes through
the mask unchanged — while the claimed rule prescribes `Ana (****)`.
(2) A whitespace-only wallet is non-empty, yet the entry type is "phone"
(the code strips before testing).  (3) A whitespace-only name is non-empty,
yet it renders as "anonymous" (the code strips the name first). -/
theorem c6_counterexample :
    ((ranking [c6TxEmptyPhone] 10).map LeaderboardEntry.display_name = ["Ana ()"] ∧
      "Ana" ++ " (" ++ specMaskPhone "" ++ ")" = "Ana (****)" ∧
      (("Ana ()" : String) = "Ana (****)" → False)) ∧
    ((ranking [c6TxSpaceWallet] 10).map LeaderboardEntry.kind = ["phone"] ∧
      ((" " : String) = "" → False)) ∧
    ((ranking [c6TxSpaceName] 10).map LeaderboardEntry.display_name
        = ["anonymous (0xAB)"] ∧
      ((" " : String) = "" → False)) := by
  refine ⟨⟨?_, ?_, ?_⟩, ⟨?_, ?_⟩, ⟨?_, ?_⟩⟩ <;> decide

theorem walletTruthy_iff (o : Option String) :
    walletTruthy o = true ↔ ∃ w, o = some w ∧ pyStrip w ≠ "" := by
  cases o with
  | none =>
    simp [walletTruthy]
  | some w =>
    by_cases hw : w = ""
    · subst hw
      constructor
      · intro h
        simp [walletTruthy] at h
      · rintro ⟨w', hw', hne⟩
        obtain rfl : "" = w' := by simpa using hw'
        exact absurd rfl hne
    · constructor
      · intro h
        simp only [walletTruthy, if_neg hw, decide_eq_true_eq] at h
        exact ⟨w, rfl, h⟩
      · rintro ⟨w', hw', hne⟩
        obtain rfl : w = w' := by simpa using hw'
        simp only [walletTruthy, if_neg hw, decide_eq_true_eq]
        exact hne

theorem mask_phone_nonempty (s : String) (hs : ¬ s = "") :
    mask_phone (some s) = some ("****" ++ String.mk
      ((s.toList.filter Char.isDigit).drop
        ((s.toList.filter Char.isDigit).length - 4))) := by
  by_cases hlen : (s.toList.filter Char.isDigit).length ≤ 4
  · have hzero : (s.toList.filter Char.isDigit).length - 4 = 0 := by omega
    rw [hzero, List.drop_zero]
    simp only [mask_phone, if_neg hs]
    rw [if_pos hlen]
  · simp only [mask_phone, if_neg hs]
    rw [if_neg hlen]

/-- C6 amended: every rendered entry comes from a joined row; its type is
"wallet" exactly when the representative wallet is non-empty after
stripping whitespace (else "phone"); the display name is the stripped name,
or "anonymous" when that is empty, followed by the masked identifier in
parentheses — first four characters of the identity for a wallet entry,
four stars plus the trailing (up to four) digits for a non-empty phone
identity, and the empty string passed through unchanged for an empty phone
identity; the total is the group sum with NULL rendered as 0. -/
theorem c6_amended_rendering (txs : List Transaction) (limit : ℕ) :
    ∀ e ∈ ranking txs limit, ∃ r ∈ ranking_rows txs limit,
      e = renderEntry r ∧
      (e.kind = "wallet" ∨ e.kind = "phone") ∧
      (e.kind = "wallet" ↔ ∃ w, r.wallet = some w ∧ pyStrip w ≠ "") ∧
      (e.kind = "wallet" →
        e.display_name
          = (if pyStrip r.name = "" then "anonymous" else pyStrip r.name) ++
            " (" ++ String.mk ((pyStr r.ident).toList.take 4) ++ ")") ∧
      (∀ s, e.kind = "phone" → r.ident = some s → s ≠ "" →
        e.display_name
          = (if pyStrip r.name = "" then "anonymous" else pyStrip r.name) ++
            " (" ++ ("****" ++ String.mk
              ((s.toList.filter Char.isDigit).drop
                ((s.toList.filter Char.isDigit).length - 4))) ++ ")") ∧
      (e.kind = "phone" → r.ident = some "" →
        e.display_name
          = (if pyStrip r.name = "" then "anonymous" else pyStrip r.name) ++
            " (" ++ "" ++ ")") ∧
      e.total_kg = r.total_kg.getD 0 := by
  intro e he
  obtain ⟨r, hr, hre⟩ := List.mem_map.mp he
  refine ⟨r, hr, hre.symm, ?_⟩
  subst hre
  by_cases hw : walletTruthy r.wallet = true
  · have hrend : renderEntry r =
        { kind := "wallet", identifier := r.ident,
          display_name := (if pyStrip r.name = "" then "anonymous" else pyStrip r.name)
            ++ " (" ++ String.mk ((pyStr r.ident).toList.take 4) ++ ")",
          rep_name := pyStrip r.name,
          wallet_pfx := some (String.mk ((pyStr r.ident).toList.take 4)),
          total_kg := r.total_kg.getD 0 } := by
      simp only [renderEntry, if_pos hw]
    rw [hrend]
    refine ⟨Or.inl rfl, ?_, fun _ => rfl, ?_, ?_, rfl⟩
    · simpa using (walletTruthy_iff r.wallet).mp hw
    · intro s hk
      simp at hk
    · intro hk
      simp at hk
  · have hrend : renderEntry r =
        { kind := "phone", identifier := r.ident,
          display_name := (if pyStrip r.name = "" then "anonymous" else pyStrip r.name)
            ++ " (" ++ pyStr (mask_phone r.ident) ++ ")",
          rep_name := pyStrip r.name,
          wallet_pfx := none,
          total_kg := r.total_kg.getD 0 } := by
      simp only [renderEntry, if_neg hw]
    rw [hrend]
    refine ⟨Or.inr rfl, ?_, ?_, ?_, ?_, rfl⟩
    · constructor
      · intro hk
        simp at hk
      · rintro ⟨w', hw', hne⟩
        exact absurd ((walletTruthy_iff r.wallet).mpr ⟨w', hw', hne⟩) hw
    · intro hk
      simp at hk
    · intro s _ hident hs
      rw [hident, mask_phone_nonempty s hs]
      rfl
    · intro _ hident
      rw [hident]
      rfl

/-- The entry rendered for the empty-phone-identity store. -/
def c6Entry : LeaderboardEntry :=
  { kind := "phone", identifier := some "", display_name := "Ana ()",
    rep_name := "Ana", wallet_pfx := none, total_kg := 2 }

/-- Witness for the amended C6 at the empty-phone store. -/
theorem c6_amended_rendering_witness :
    ∃ r ∈ ranking_rows [c6TxEmptyPhone] 10,
      c6Entry = renderEntry r ∧
      (c6Entry.kind = "wallet" ∨ c6Entry.kind = "phone") ∧
      (c6Entry.kind = "wallet" ↔ ∃ w, r.wallet = some w ∧ pyStrip w ≠ "") ∧
      (c6Entry.kind = "wallet" →
        c6Entry.display_name
          = (if pyStrip r.name = "" then "anonymous" else pyStrip r.name) ++
            " (" ++ String.mk ((pyStr r.ident).toList.take 4) ++ ")") ∧
      (∀ s, c6Entry.kind = "phone" → r.ident = some s → s ≠ "" →
        c6Entry.display_name
          = (if pyStrip r.name = "" then "anonymous" else pyStrip r.name) ++
            " (" ++ ("****" ++ String.mk
              ((s.toList.filter Char.isDigit).drop
                ((s.toList.filter Char.isDigit).length - 4))) ++ ")") ∧
      (c6Entry.kind = "phone" → r.ident = some "" →
        c6Entry.display_name
          = (if pyStrip r.name = "" then "anonymous" else pyStrip r.name) ++
            " (" ++ "" ++ ")") ∧
      c6Entry.total_kg = r.total_kg.getD 0 :=
  c6_amended_rendering [c6TxEmptyPhone] 10 c6Entry (by decide)

end TxCore
